import Mathlib

/-!
# Verification of the athu Gemini-proxy worker (src/worker.js)

A shallow embedding of the Cloudflare Worker in `src/worker.js`:
the per-IP fixed-window rate limiter (`isRateLimited`), the CORS
header computation (`corsHeaders`), the `json` response helper, and
the main `fetch` dispatcher (method/path routing, body validation,
the upstream Gemini call's result handling, markdown-fence stripping
and JSON re-parsing).  JavaScript's `JSON.parse` builtin is modelled
by an executable fuel-based JSON parser over `List Char`.
-/

/-- JSON values as produced by `JSON.parse`.  A number is kept as a
mantissa/decimal-exponent pair `m * 10 ^ e`, which the parser fills in
directly from the digits (so structural equality on the parses used in
this development is literal equality of the source texts' digits). -/
inductive Json where
  | null : Json
  | bool (b : Bool) : Json
  | num (m : Int) (e : Int) : Json
  | str (s : String) : Json
  | arr (xs : List Json) : Json
  | obj (fs : List (String × Json)) : Json
deriving Repr

/-- JSON insignificant whitespace (RFC 8259: space, tab, LF, CR). -/
def isJsonWs (c : Char) : Bool :=
  c = ' ' || c = '\t' || c = '\n' || c = '\r'

/-- Drop leading JSON whitespace. -/
def skipWs (l : List Char) : List Char := l.dropWhile isJsonWs

/-- The `\x7b` character (left curly brace). -/
def lbrace : Char := Char.ofNat 123

/-- The `\x7d` character (right curly brace). -/
def rbrace : Char := Char.ofNat 125

/-- Value of one hex digit. -/
def hexVal (c : Char) : Option Nat :=
  if '0' ≤ c ∧ c ≤ '9' then some (c.toNat - 48)
  else if 'a' ≤ c ∧ c ≤ 'f' then some (c.toNat - 87)
  else if 'A' ≤ c ∧ c ≤ 'F' then some (c.toNat - 55)
  else none

/-- Single-character JSON string escapes. -/
def escChar (c : Char) : Option Char :=
  if c = '"' then some '"'
  else if c = '\\' then some '\\'
  else if c = '/' then some '/'
  else if c = 'b' then some (Char.ofNat 8)
  else if c = 'f' then some (Char.ofNat 12)
  else if c = 'n' then some '\n'
  else if c = 'r' then some '\r'
  else if c = 't' then some '\t'
  else none

/-- Parse the rest of a JSON string after the opening quote; returns the
decoded characters and the remaining input. -/
def parseStrAux : List Char → Option (List Char × List Char)
  | [] => none
  | c :: rest =>
    if c = '"' then some ([], rest)
    else if c = '\\' then
      match rest with
      | [] => none
      | e :: rest2 =>
        if e = 'u' then
          match rest2 with
          | a :: b :: c2 :: d :: rest3 =>
            match hexVal a, hexVal b, hexVal c2, hexVal d with
            | some va, some vb, some vc, some vd =>
              match parseStrAux rest3 with
              | some (s, r) =>
                some (Char.ofNat (((va * 16 + vb) * 16 + vc) * 16 + vd) :: s, r)
              | none => none
            | _, _, _, _ => none
          | _ => none
        else
          match escChar e with
          | some ch =>
            match parseStrAux rest2 with
            | some (s, r) => some (ch :: s, r)
            | none => none
          | none => none
    else if c.toNat < 32 then none
    else
      match parseStrAux rest with
      | some (s, r) => some (c :: s, r)
      | none => none

/-- Digits of a decimal number folded into a natural. -/
def digitsToNat (l : List Char) : Nat :=
  l.foldl (fun a c => a * 10 + (c.toNat - 48)) 0

/-- Parse a JSON number (grammar of RFC 8259: optional minus, integer part
without superfluous leading zero, optional fraction, optional exponent). -/
def parseNum (l : List Char) : Option (Json × List Char) :=
  let (neg, l1) := match l with
    | '-' :: r => (true, r)
    | _ => (false, l)
  let intD := l1.takeWhile Char.isDigit
  let l2 := l1.dropWhile Char.isDigit
  if intD = [] then none
  else if intD.length > 1 ∧ intD.head? = some '0' then none
  else
    let (fracD, l3) := match l2 with
      | '.' :: r => (r.takeWhile Char.isDigit, r.dropWhile Char.isDigit)
      | _ => ([], l2)
    if l2.head? = some '.' ∧ fracD = [] then none
    else
      let mant : Int := (if neg then -1 else 1) * (digitsToNat (intD ++ fracD) : Int)
      let e0 : Int := -(fracD.length : Int)
      match l3 with
      | c :: r =>
        if c = 'e' ∨ c = 'E' then
          let (esign, r1) := match r with
            | '+' :: rr => ((1 : Int), rr)
            | '-' :: rr => ((-1 : Int), rr)
            | _ => ((1 : Int), r)
          let eD := r1.takeWhile Char.isDigit
          let r2 := r1.dropWhile Char.isDigit
          if eD = [] then none
          else some (Json.num mant (e0 + esign * (digitsToNat eD : Int)), r2)
        else some (Json.num mant e0, l3)
      | [] => some (Json.num mant e0, [])

/-- Match a literal character sequence at the head of the input. -/
def stripLit : List Char → List Char → Option (List Char)
  | [], l => some l
  | p :: ps, c :: cs => if c = p then stripLit ps cs else none
  | _ :: _, [] => none

mutual

/-- Parse one JSON value (fuel-bounded recursive descent). -/
def parseValue : Nat → List Char → Option (Json × List Char)
  | 0, _ => none
  | fuel + 1, input =>
    match skipWs input with
    | [] => none
    | c :: rest =>
      if c = '"' then
        match parseStrAux rest with
        | some (s, r) => some (Json.str (String.mk s), r)
        | none => none
      else if c = 'n' then
        match stripLit ['u', 'l', 'l'] rest with
        | some r => some (Json.null, r)
        | none => none
      else if c = 't' then
        match stripLit ['r', 'u', 'e'] rest with
        | some r => some (Json.bool true, r)
        | none => none
      else if c = 'f' then
        match stripLit ['a', 'l', 's', 'e'] rest with
        | some r => some (Json.bool false, r)
        | none => none
      else if c = '[' then
        match skipWs rest with
        | ']' :: r2 => some (Json.arr [], r2)
        | rest2 =>
          match parseValue fuel rest2 with
          | none => none
          | some (v, r2) =>
            match parseArrTail fuel r2 with
            | none => none
            | some (vs, r3) => some (Json.arr (v :: vs), r3)
      else if c = lbrace then
        match skipWs rest with
        | d :: r2 =>
          if d = rbrace then some (Json.obj [], r2)
          else
            match parseMember fuel (d :: r2) with
            | none => none
            | some (kv, r3) =>
              match parseObjTail fuel r3 with
              | none => none
              | some (kvs, r4) => some (Json.obj (kv :: kvs), r4)
        | [] => none
      else parseNum (c :: rest)

/-- Parse one `"key": value` member of a JSON object. -/
def parseMember : Nat → List Char → Option ((String × Json) × List Char)
  | 0, _ => none
  | fuel + 1, l =>
    match skipWs l with
    | '"' :: r =>
      match parseStrAux r with
      | none => none
      | some (k, r2) =>
        match skipWs r2 with
        | ':' :: r3 =>
          match parseValue fuel r3 with
          | none => none
          | some (v, r4) => some ((String.mk k, v), r4)
        | _ => none
    | _ => none

/-- Parse the remainder of an array after its first element. -/
def parseArrTail : Nat → List Char → Option (List Json × List Char)
  | 0, _ => none
  | fuel + 1, l =>
    match skipWs l with
    | ']' :: r => some ([], r)
    | ',' :: r =>
      match parseValue fuel r with
      | none => none
      | some (v, r2) =>
        match parseArrTail fuel r2 with
        | none => none
        | some (vs, r3) => some (v :: vs, r3)
    | _ => none

/-- Parse the remainder of an object after its first member. -/
def parseObjTail : Nat → List Char → Option (List (String × Json) × List Char)
  | 0, _ => none
  | fuel + 1, l =>
    match skipWs l with
    | c :: r =>
      if c = rbrace then some ([], r)
      else if c = ',' then
        match parseMember fuel r with
        | none => none
        | some (kv, r2) =>
          match parseObjTail fuel r2 with
          | none => none
          | some (kvs, r3) => some (kv :: kvs, r3)
      else none
    | [] => none

end

/-- Model of `JSON.parse` on a character list: one value, then only whitespace. -/
def parseJsonList (l : List Char) : Option Json :=
  match parseValue (l.length + 1) l with
  | some (v, rest) => if skipWs rest = [] then some v else none
  | none => none

/-- Model of JavaScript's `JSON.parse`: `some` the parsed value on valid
JSON input, `none` when `JSON.parse` would throw. -/
def parseJson (s : String) : Option Json := parseJsonList s.data


/-! ## JavaScript string helpers used by the worker -/

/-- JavaScript's WhiteSpace/LineTerminator set, shared by `String.prototype.trim`
and the regex class `\s`. -/
def isJsWhite (c : Char) : Bool :=
  c = ' ' || c = '\t' || c = '\n' || c = '\r' ||
  c = Char.ofNat 11 || c = Char.ofNat 12 || c = Char.ofNat 160 ||
  c = Char.ofNat 0x1680 || (0x2000 ≤ c.toNat && c.toNat ≤ 0x200A) ||
  c = Char.ofNat 0x2028 || c = Char.ofNat 0x2029 || c = Char.ofNat 0x202F ||
  c = Char.ofNat 0x205F || c = Char.ofNat 0x3000 || c = Char.ofNat 0xFEFF

/-- JavaScript's `String.prototype.trim`. -/
def jsTrim (s : String) : String :=
  String.mk (((s.data.dropWhile isJsWhite).reverse.dropWhile isJsWhite).reverse)

/-- Property access `obj[k]` on a parsed JSON value: `some` for a present
object member (later duplicate keys win, as in `JSON.parse`), `none` for
`undefined` / non-object receivers. -/
def jsGet (j : Json) (k : String) : Option Json :=
  match j with
  | Json.obj fs => fs.foldl (fun acc p => if p.1 = k then some p.2 else acc) none
  | _ => none

/-- JavaScript truthiness of a possibly-`undefined` JSON value. -/
def jsTruthy : Option Json → Bool
  | none => false
  | some Json.null => false
  | some (Json.bool b) => b
  | some (Json.num m _) => decide (m ≠ 0)
  | some (Json.str s) => decide (s ≠ "")
  | some (Json.arr _) => true
  | some (Json.obj _) => true

/-! ## Rate limiter (`isRateLimited`, src/worker.js lines 50-62) -/

/-- One value of `rateLimitMap`: request count and window start (ms). -/
structure RLEntry where
  count : Nat
  start : Nat
deriving Repr, DecidableEq

/-- The worker's module-level `rateLimitMap`, as a total lookup function. -/
def RateMap : Type := String → Option RLEntry

/-- The function `isRateLimited(ip)`: fixed 60 000 ms window, threshold 20; returns the
boolean decision and the updated map (the JS function mutates `rateLimitMap`
in place). -/
def isRateLimited (ip : String) (now : Nat) (m : RateMap) : Bool × RateMap :=
  let e0 := (m ip).getD ⟨0, now⟩
  let e1 := if now - e0.start > 60000 then (⟨0, now⟩ : RLEntry) else e0
  let e2 : RLEntry := ⟨e1.count + 1, e1.start⟩
  (decide (e2.count > 20), fun k => if k = ip then some e2 else m k)

/-! ## CORS helpers (src/worker.js lines 16-21 and 64-80) -/

/-- The static allow-list `ALLOWED_ORIGINS`. -/
def ALLOWED_ORIGINS : List String := ["https://athumoz.github.io"]

/-- The `allowed` computation inside `corsHeaders`: the requested origin if
allow-listed, else `ALLOWED_ORIGINS[0]`. -/
def resolveOrigin (origin : String) : String :=
  if ALLOWED_ORIGINS.contains origin then origin else ALLOWED_ORIGINS.headD ""

/-- The function `corsHeaders(origin)`. -/
def corsHeaders (origin : String) : List (String × String) :=
  [("Access-Control-Allow-Origin", resolveOrigin origin),
   ("Access-Control-Allow-Methods", "POST, OPTIONS"),
   ("Access-Control-Allow-Headers", "Content-Type"),
   ("Access-Control-Max-Age", "86400")]

/-- Headers attached by the `json` helper: `Content-Type` plus the spread
CORS headers. -/
def jsonHdrs (origin : String) : List (String × String) :=
  ("Content-Type", "application/json") :: corsHeaders origin

/-- An `\x7b error: msg \x7d` body. -/
def errObj (msg : String) : Json := Json.obj [("error", Json.str msg)]

/-- The result of one `fetch` invocation: either a `Response` (status, body
as a JSON value or `none` for a null body, headers) or an uncaught throw
(`await geminiRes.json()` on line 131 sits outside every `try`). -/
inductive Outcome where
  | resp (status : Nat) (body : Option Json) (headers : List (String × String)) : Outcome
  | thrown : Outcome
deriving Repr

/-- The `json(body, status, origin)` helper (src/worker.js lines 75-80). -/
def jsonResp (body : Json) (status : Nat) (origin : String) : Outcome :=
  Outcome.resp status (some body) (jsonHdrs origin)

/-! ## Request validation (src/worker.js lines 104-112) -/

/-- JavaScript's `s.slice(0, n)`: the first `n` characters. -/
def jsSlice (s : String) (n : Nat) : String := String.mk (s.data.take n)

/-- The expression `(body.query || '').trim().slice(0, 500)` on the parsed body: `none`
models the TypeError thrown (and caught) when a truthy non-string value
has no `.trim` method. -/
def extractQuery (b : Json) : Option String :=
  let v := jsGet b "query"
  if jsTruthy v then
    match v with
    | some (Json.str s) => some (jsSlice (jsTrim s) 500)
    | _ => none
  else some ""

/-- The body of the `try` block on an already-parsed JSON body: the final
query string, or `none` when the catch arm (status 400) is taken. -/
def validateJson (b : Json) : Option String :=
  match extractQuery b with
  | none => none
  | some q => if q = "" then none else some q

/-- The whole `try` block: `await request.json()` then query extraction;
`none` is the catch arm (status 400). -/
def validate (bodyText : String) : Option String :=
  match parseJson bodyText with
  | none => none
  | some b => validateJson b

/-! ## Fence stripping (src/worker.js lines 139-144) -/

/-- The backtick character. -/
def backtick : Char := Char.ofNat 96

/-- Case-insensitive character match (regex `/i` flag, ASCII letters). -/
def ciEq (p c : Char) : Bool := p.toLower = c.toLower

/-- Case-insensitively match a literal pattern at the head of the input. -/
def ciStrip : List Char → List Char → Option (List Char)
  | [], l => some l
  | p :: ps, c :: cs => if ciEq p c then ciStrip ps cs else none
  | _ :: _, [] => none

/-- The pattern ` ```json ` (three backticks then `json`). -/
def fenceJson : List Char := [backtick, backtick, backtick, 'j', 's', 'o', 'n']

/-- The pattern ` ``` ` (three backticks). -/
def fence3 : List Char := [backtick, backtick, backtick]

/-- Regex replace of a leading fence annotated `json` (case-insensitive),
followed by any whitespace run. -/
def stripLeadFenceJson (l : List Char) : List Char :=
  match ciStrip fenceJson l with
  | some rest => rest.dropWhile isJsWhite
  | none => l

/-- Regex replace of a leading plain fence followed by any whitespace run. -/
def stripLeadFence3 (l : List Char) : List Char :=
  match ciStrip fence3 l with
  | some rest => rest.dropWhile isJsWhite
  | none => l

/-- Regex replace of a trailing fence preceded by any whitespace run. -/
def stripTrailFence (l : List Char) : List Char :=
  match ciStrip fence3 l.reverse with
  | some rest => (rest.dropWhile isJsWhite).reverse
  | none => l

/-- The `clean` computation: the three `replace` calls then `.trim()`. -/
def stripFences (s : String) : String :=
  jsTrim (String.mk (stripTrailFence (stripLeadFence3 (stripLeadFenceJson s.data))))

/-! ## Candidate-text extraction (src/worker.js lines 131-137) -/

/-- Indexing `x[0]`: first array element, `"0"` member of an object, first
character of a string; `undefined` otherwise. -/
def jsIndex0 (j : Json) : Option Json :=
  match j with
  | Json.arr (x :: _) => some x
  | Json.arr [] => none
  | Json.obj fs => jsGet (Json.obj fs) "0"
  | Json.str s =>
    match s.data with
    | c :: _ => some (Json.str (String.mk [c]))
    | [] => none
  | _ => none

/-- A JSON string's contents, `none` otherwise. -/
def asString : Json → Option String
  | Json.str s => some s
  | _ => none

/-- The chain `data.candidates[0].content.parts[0].text.trim()`: `none` models any
TypeError along the chain (caught; status 502). -/
def extractRawText (data : Json) : Option String := do
  let c ← jsGet data "candidates"
  let c0 ← jsIndex0 c
  let ct ← jsGet c0 "content"
  let ps ← jsGet ct "parts"
  let p0 ← jsIndex0 ps
  let t ← jsGet p0 "text"
  let s ← asString t
  pure (jsTrim s)

/-! ## The main handler (src/worker.js lines 83-154) -/

/-- An inbound request as the worker reads it: method, `url.pathname`, the
`Origin` and `CF-Connecting-IP` headers (`none` = header absent), and the
raw body text handed to `request.json()`. -/
structure Request where
  method : String
  path : String
  origin : Option String
  ip : Option String
  body : String

/-- The upstream (Gemini) HTTP response for this invocation: status and raw
body text. -/
structure UpstreamResp where
  status : Nat
  body : String

/-- The getter `Response.ok`: status in the inclusive range 200-299. -/
def respOk (up : UpstreamResp) : Bool :=
  decide (200 ≤ up.status ∧ up.status ≤ 299)

/-- Everything one `fetch` invocation produces: the outcome, the rate-limit
map after the call, the `console.error` log (upstream status and parsed
error body), and the queries sent upstream. -/
structure HandleOut where
  out : Outcome
  rl : RateMap
  logs : List (Nat × Json)
  upstreamQueries : List String

/-- The error messages of src/worker.js, verbatim. -/
def MSG_NOT_FOUND : String := "Not found"

/-- Message of the 429 response. -/
def MSG_RATE : String := "Demasiados pedidos. Tente novamente em 1 minuto."

/-- Message of the 400 response. -/
def MSG_INVALID : String := "Pergunta inválida ou ausente."

/-- Message of the 502 response for a failed upstream call. -/
def MSG_UPSTREAM : String := "Erro ao processar a pergunta. Tente novamente."

/-- Message of the 502 response for a malformed success envelope. -/
def MSG_UNEXPECTED : String := "Resposta inesperada do servidor."

/-- Message of the 502 response for unparseable candidate text. -/
def MSG_UNPARSEABLE : String := "Não foi possível interpretar a resposta. Tente novamente."

/-- The exported `fetch(request, env)` handler, with time, the rate-limit
map and the upstream response passed explicitly. -/
def handle (req : Request) (now : Nat) (m : RateMap) (up : UpstreamResp) : HandleOut :=
  let origin := req.origin.getD ""
  if req.method = "OPTIONS" then
    ⟨Outcome.resp 204 none (corsHeaders origin), m, [], []⟩
  else if req.method ≠ "POST" ∨ req.path ≠ "/api/query" then
    ⟨jsonResp (errObj MSG_NOT_FOUND) 404 origin, m, [], []⟩
  else
    let ip := req.ip.getD "unknown"
    let rl := isRateLimited ip now m
    if rl.1 then
      ⟨jsonResp (errObj MSG_RATE) 429 origin, rl.2, [], []⟩
    else
      match validate req.body with
      | none => ⟨jsonResp (errObj MSG_INVALID) 400 origin, rl.2, [], []⟩
      | some q =>
        if respOk up then
          match parseJson up.body with
          | none => ⟨Outcome.thrown, rl.2, [], [q]⟩
          | some data =>
            match extractRawText data with
            | none => ⟨jsonResp (errObj MSG_UNEXPECTED) 502 origin, rl.2, [], [q]⟩
            | some rawText =>
              match parseJson (stripFences rawText) with
              | none => ⟨jsonResp (errObj MSG_UNPARSEABLE) 502 origin, rl.2, [], [q]⟩
              | some parsed => ⟨jsonResp parsed 200 origin, rl.2, [], [q]⟩
        else
          ⟨jsonResp (errObj MSG_UPSTREAM) 502 origin, rl.2,
            [(up.status, (parseJson up.body).getD (Json.obj []))], [q]⟩

/-- Status of an outcome (`none` for an uncaught throw). -/
def outcomeStatus : Outcome → Option Nat
  | Outcome.resp s _ _ => some s
  | Outcome.thrown => none

/-! ## Auxiliary constructions for the theorems -/

/-- The empty `rateLimitMap` (worker start-up state). -/
def emptyRL : RateMap := fun _ => none

/-- State of the rate-limit map after `n` calls for `ip`, all at time `now`. -/
def callSeq (ip : String) (now : Nat) : Nat → RateMap → RateMap
  | 0, m => m
  | n + 1, m => (isRateLimited ip now (callSeq ip now n m)).2

/-- After `n ≥ 1` same-instant calls for a fresh key, the entry holds count `n`. -/
lemma callSeq_entry (ip : String) (now : Nat) (m : RateMap) (h : m ip = none) :
    ∀ n : Nat, callSeq ip now n m ip = if n = 0 then none else some ⟨n, now⟩ := by
  intro n
  induction n with
  | zero => simpa using h
  | succ k ih =>
    have hstep : callSeq ip now (k + 1) m ip =
        (isRateLimited ip now (callSeq ip now k m)).2 ip := rfl
    rw [hstep]
    cases k with
    | zero =>
      have h0 : callSeq ip now 0 m ip = none := h
      simp [isRateLimited, h0, Nat.sub_self]
    | succ j =>
      have ih2 : callSeq ip now (j + 1) m ip = some ⟨j + 1, now⟩ := by simpa using ih
      simp [isRateLimited, ih2, Nat.sub_self]

/-! ## Claim theorems -/

/-- C1: for every client key, the rate-limit check admits a call exactly when
its post-increment count within the current 60 000 ms window is at most 20
(so the 1st through 20th calls of a fresh window are admitted and the 21st
and later are denied), the count is incremented on every call including
denied ones, and a call made when `now` minus the stored window start
exceeds 60 000 ms resets the count and is admitted again. -/
theorem rate_limit_fixed_window (ip : String) (now : Nat) (m : RateMap) :
    (∀ e : RLEntry, m ip = some e → now - e.start ≤ 60000 →
      isRateLimited ip now m =
        (decide (e.count + 1 > 20),
         fun k => if k = ip then some ⟨e.count + 1, e.start⟩ else m k)) ∧
    (∀ e : RLEntry, m ip = some e → now - e.start > 60000 →
      isRateLimited ip now m =
        (false, fun k => if k = ip then some ⟨1, now⟩ else m k)) ∧
    (m ip = none →
      isRateLimited ip now m =
        (false, fun k => if k = ip then some ⟨1, now⟩ else m k)) ∧
    (m ip = none → ∀ n : Nat,
      (isRateLimited ip now (callSeq ip now n m)).1 = decide (n + 1 > 20)) := by
  refine ⟨?_, ?_, ?_, ?_⟩
  · intro e he hle
    simp [isRateLimited, he, Nat.not_lt.mpr hle]
  · intro e he hgt
    simp [isRateLimited, he, hgt]
  · intro he
    simp [isRateLimited, he, Nat.sub_self]
  · intro he n
    cases n with
    | zero =>
      have h0 : callSeq ip now 0 m ip = none := he
      simp [isRateLimited, h0, Nat.sub_self]
    | succ k =>
      have hk : callSeq ip now (k + 1) m ip = some ⟨k + 1, now⟩ := by
        simpa using callSeq_entry ip now m he (k + 1)
      simp [isRateLimited, hk, Nat.sub_self]

/-- Witness for C1 at a fresh key: the 1st call is admitted, the 20th is
admitted, the 21st is denied, and after a window expiry the entry resets. -/
theorem rate_limit_fixed_window_witness :
    (isRateLimited "9.9.9.9" 1000 emptyRL).1 = false ∧
    (isRateLimited "9.9.9.9" 1000 (callSeq "9.9.9.9" 1000 19 emptyRL)).1 = false ∧
    (isRateLimited "9.9.9.9" 1000 (callSeq "9.9.9.9" 1000 20 emptyRL)).1 = true ∧
    (isRateLimited "9.9.9.9" 70000
      (fun k => if k = "9.9.9.9" then some ⟨21, 1000⟩ else none)).1 = false ∧
    (isRateLimited "9.9.9.9" 70000
      (fun k => if k = "9.9.9.9" then some ⟨21, 1000⟩ else none)).2 "9.9.9.9" =
      some ⟨1, 70000⟩ := by
  refine ⟨?_, ?_, ?_, ?_, ?_⟩
  · have h := (rate_limit_fixed_window "9.9.9.9" 1000 emptyRL).2.2.2 rfl 0
    simpa using h
  · have h := (rate_limit_fixed_window "9.9.9.9" 1000 emptyRL).2.2.2 rfl 19
    simpa using h
  · have h := (rate_limit_fixed_window "9.9.9.9" 1000 emptyRL).2.2.2 rfl 20
    simpa using h
  · have h := (rate_limit_fixed_window "9.9.9.9" 70000
      (fun k => if k = "9.9.9.9" then some ⟨21, 1000⟩ else none)).2.1
      ⟨21, 1000⟩ (by simp) (by simp)
    simpa using congrArg Prod.fst h
  · have h := (rate_limit_fixed_window "9.9.9.9" 70000
      (fun k => if k = "9.9.9.9" then some ⟨21, 1000⟩ else none)).2.1
      ⟨21, 1000⟩ (by simp) (by simp)
    simpa using congrFun (congrArg Prod.snd h) "9.9.9.9"

/-- C10: a rate-limit call for one client key mutates only that key's entry
(every other key's stored count and window start are unchanged), and the
admission decision depends only on that key's own entry. -/
theorem rate_limit_frame_effect (ip : String) (now : Nat) (m m2 : RateMap) :
    (∀ k, k ≠ ip → (isRateLimited ip now m).2 k = m k) ∧
    (m ip = m2 ip → (isRateLimited ip now m).1 = (isRateLimited ip now m2).1) := by
  constructor
  · intro k hk
    simp [isRateLimited, hk]
  · intro h
    simp [isRateLimited, h]

/-- Witness for C10: a call for key `a` leaves key `b`'s entry in place, and
the decision for `a` is the same against two maps that agree at `a`. -/
theorem rate_limit_frame_effect_witness :
    (isRateLimited "a" 50 (fun k => if k = "b" then some ⟨7, 3⟩ else none)).2 "b" =
      some ⟨7, 3⟩ ∧
    (isRateLimited "a" 50 (fun k => if k = "b" then some ⟨7, 3⟩ else none)).1 =
      (isRateLimited "a" 50 emptyRL).1 := by
  constructor
  · have h := (rate_limit_frame_effect "a" 50
      (fun k => if k = "b" then some ⟨7, 3⟩ else none) emptyRL).1 "b" (by decide)
    simpa using h
  · exact (rate_limit_frame_effect "a" 50
      (fun k => if k = "b" then some ⟨7, 3⟩ else none) emptyRL).2 (by simp [emptyRL])

/-- C7: an `OPTIONS` request, whatever its path and the rate-limit state,
yields status 204 with no body and the computed CORS headers; the
rate-limit map is untouched, nothing is logged, and no upstream call or
validation happens (the result ignores the body and the upstream response
entirely). -/
theorem preflight_options_204 (req : Request) (now : Nat) (m : RateMap)
    (up : UpstreamResp) (hm : req.method = "OPTIONS") :
    handle req now m up =
      ⟨Outcome.resp 204 none (corsHeaders (req.origin.getD "")), m, [], []⟩ := by
  simp [handle, hm]

/-- Witness for C7: a concrete `OPTIONS` request to an arbitrary path with a
21-count rate-limit entry already stored for its IP. -/
theorem preflight_options_204_witness :
    handle ⟨"OPTIONS", "/nowhere", some "https://evil.example", some "8.8.8.8", "junk"⟩
        12345 (fun k => if k = "8.8.8.8" then some ⟨21, 12000⟩ else none) ⟨500, "boom"⟩ =
      ⟨Outcome.resp 204 none (corsHeaders "https://evil.example"),
       fun k => if k = "8.8.8.8" then some ⟨21, 12000⟩ else none, [], []⟩ :=
  preflight_options_204
    ⟨"OPTIONS", "/nowhere", some "https://evil.example", some "8.8.8.8", "junk"⟩
    12345 (fun k => if k = "8.8.8.8" then some ⟨21, 12000⟩ else none) ⟨500, "boom"⟩ rfl

/-- C2: an allow-listed origin is echoed verbatim as
`Access-Control-Allow-Origin`; any other origin (the empty string included,
which stands for an absent `Origin` header) gets the first allow-listed
origin; and the handler never rejects a request because of its origin —
the outcome's status is invariant under changing the origin. -/
theorem cors_allow_origin_resolution :
    (∀ o, o ∈ ALLOWED_ORIGINS → resolveOrigin o = o) ∧
    (∀ o, o ∉ ALLOWED_ORIGINS → resolveOrigin o = ALLOWED_ORIGINS.headD "") ∧
    resolveOrigin "" = ALLOWED_ORIGINS.headD "" ∧
    (∀ o, (corsHeaders o).head? = some ("Access-Control-Allow-Origin", resolveOrigin o)) ∧
    (∀ (req : Request) (o2 : Option String) (now : Nat) (m : RateMap) (up : UpstreamResp),
      outcomeStatus (handle { req with origin := o2 } now m up).out =
        outcomeStatus (handle req now m up).out) := by
  refine ⟨?_, ?_, ?_, ?_, ?_⟩
  · intro o ho
    simp [resolveOrigin, ho]
  · intro o ho
    simp [resolveOrigin, ho]
  · simp [resolveOrigin, ALLOWED_ORIGINS]
  · intro o
    simp [corsHeaders]
  · intro req o2 now m up
    by_cases h1 : req.method = "OPTIONS"
    · simp [handle, h1, outcomeStatus]
    · by_cases h2 : req.method ≠ "POST" ∨ req.path ≠ "/api/query"
      · simp only [handle]
        simp [h1, h2, outcomeStatus, jsonResp]
      · by_cases h3 : (isRateLimited (req.ip.getD "unknown") now m).1 = true
        · simp [handle, h1, h2, h3, outcomeStatus, jsonResp]
        · rcases hv : validate req.body with _ | q
          · simp [handle, h1, h2, h3, hv, outcomeStatus, jsonResp]
          · by_cases h4 : respOk up = true
            · rcases hp : parseJson up.body with _ | data
              · simp [handle, h1, h2, h3, hv, h4, hp, outcomeStatus]
              · rcases he : extractRawText data with _ | raw
                · simp [handle, h1, h2, h3, hv, h4, hp, he, outcomeStatus, jsonResp]
                · rcases hc : parseJson (stripFences raw) with _ | p
                  · simp [handle, h1, h2, h3, hv, h4, hp, he, hc, outcomeStatus, jsonResp]
                  · simp [handle, h1, h2, h3, hv, h4, hp, he, hc, outcomeStatus, jsonResp]
            · simp [handle, h1, h2, h3, hv, h4, outcomeStatus, jsonResp]

/-- Witness for C2: the allow-listed origin is echoed, a foreign origin and
the empty origin resolve to the default, and a request's status (here a 404)
does not change when its origin does. -/
theorem cors_allow_origin_resolution_witness :
    resolveOrigin "https://athumoz.github.io" = "https://athumoz.github.io" ∧
    resolveOrigin "https://evil.example" = ALLOWED_ORIGINS.headD "" ∧
    resolveOrigin "" = ALLOWED_ORIGINS.headD "" ∧
    outcomeStatus (handle ⟨"GET", "/", some "https://evil.example", none, ""⟩
        0 emptyRL ⟨200, ""⟩).out =
      outcomeStatus (handle ⟨"GET", "/", none, none, ""⟩ 0 emptyRL ⟨200, ""⟩).out := by
  refine ⟨?_, ?_, ?_, ?_⟩
  · exact cors_allow_origin_resolution.1 "https://athumoz.github.io" (by decide)
  · exact cors_allow_origin_resolution.2.1 "https://evil.example" (by decide)
  · exact cors_allow_origin_resolution.2.2.1
  · exact cors_allow_origin_resolution.2.2.2.2
      ⟨"GET", "/", none, none, ""⟩ (some "https://evil.example") 0 emptyRL ⟨200, ""⟩

/-- Helper: any response built by the `json` helper carries exactly the
JSON content type and the CORS headers for its origin. -/
lemma jsonResp_headers (body : Json) (st : Nat) (o : String) (s : Nat)
    (b : Option Json) (hs : List (String × String))
    (h : jsonResp body st o = Outcome.resp s b hs) : hs = jsonHdrs o := by
  cases h
  rfl

/-- C6: every non-preflight response the handler produces — 404, 429, 400,
both 502 variants and the 200 success — carries `Content-Type:
application/json` followed by the CORS headers computed from the request's
`Origin` header; no exit path that yields a response omits them. -/
theorem responses_carry_cors_headers (req : Request) (now : Nat) (m : RateMap)
    (up : UpstreamResp) (hm : req.method ≠ "OPTIONS") :
    ∀ (s : Nat) (b : Option Json) (hs : List (String × String)),
      (handle req now m up).out = Outcome.resp s b hs →
      hs = ("Content-Type", "application/json") :: corsHeaders (req.origin.getD "") := by
  intro s b hs
  show (handle req now m up).out = Outcome.resp s b hs → hs = jsonHdrs (req.origin.getD "")
  by_cases h2 : req.method ≠ "POST" ∨ req.path ≠ "/api/query"
  · have hout : (handle req now m up).out =
        jsonResp (errObj MSG_NOT_FOUND) 404 (req.origin.getD "") := by
      simp [handle, hm, h2]
    rw [hout]
    exact fun h => jsonResp_headers _ _ _ _ _ _ h
  · by_cases h3 : (isRateLimited (req.ip.getD "unknown") now m).1 = true
    · have hout : (handle req now m up).out =
          jsonResp (errObj MSG_RATE) 429 (req.origin.getD "") := by
        simp [handle, hm, h2, h3]
      rw [hout]
      exact fun h => jsonResp_headers _ _ _ _ _ _ h
    · rcases hv : validate req.body with _ | q
      · have hout : (handle req now m up).out =
            jsonResp (errObj MSG_INVALID) 400 (req.origin.getD "") := by
          simp [handle, hm, h2, h3, hv]
        rw [hout]
        exact fun h => jsonResp_headers _ _ _ _ _ _ h
      · by_cases h4 : respOk up = true
        · rcases hp : parseJson up.body with _ | data
          · have hout : (handle req now m up).out = Outcome.thrown := by
              simp [handle, hm, h2, h3, hv, h4, hp]
            rw [hout]
            exact fun h => Outcome.noConfusion h
          · rcases he : extractRawText data with _ | raw
            · have hout : (handle req now m up).out =
                  jsonResp (errObj MSG_UNEXPECTED) 502 (req.origin.getD "") := by
                simp [handle, hm, h2, h3, hv, h4, hp, he]
              rw [hout]
              exact fun h => jsonResp_headers _ _ _ _ _ _ h
            · rcases hc : parseJson (stripFences raw) with _ | p
              · have hout : (handle req now m up).out =
                    jsonResp (errObj MSG_UNPARSEABLE) 502 (req.origin.getD "") := by
                  simp [handle, hm, h2, h3, hv, h4, hp, he, hc]
                rw [hout]
                exact fun h => jsonResp_headers _ _ _ _ _ _ h
              · have hout : (handle req now m up).out =
                    jsonResp p 200 (req.origin.getD "") := by
                  simp [handle, hm, h2, h3, hv, h4, hp, he, hc]
                rw [hout]
                exact fun h => jsonResp_headers _ _ _ _ _ _ h
        · have hout : (handle req now m up).out =
              jsonResp (errObj MSG_UPSTREAM) 502 (req.origin.getD "") := by
            simp [handle, hm, h2, h3, hv, h4]
          rw [hout]
          exact fun h => jsonResp_headers _ _ _ _ _ _ h

/-- Witness for C6 at the 404 exit: a GET to the root with no Origin header
gets the JSON content type and the CORS headers for the empty origin. -/
theorem responses_carry_cors_headers_witness :
    (handle ⟨"GET", "/", none, none, ""⟩ 3 emptyRL ⟨200, ""⟩).out =
      Outcome.resp 404 (some (errObj MSG_NOT_FOUND)) (jsonHdrs "") ∧
    jsonHdrs "" = ("Content-Type", "application/json") :: corsHeaders "" := by
  constructor
  · rfl
  · exact responses_carry_cors_headers ⟨"GET", "/", none, none, ""⟩ 3 emptyRL ⟨200, ""⟩
      (by decide) 404 (some (errObj MSG_NOT_FOUND)) (jsonHdrs "") rfl

/-- C5: whenever the upstream call has a non-success status, the dispatcher
returns status 502 with the fixed user-facing message; the upstream status
and (parsed) raw error body go to the log, and the response itself is a
constant that mentions neither. -/
theorem upstream_failure_502_fixed_message (req : Request) (now : Nat)
    (m : RateMap) (up : UpstreamResp)
    (hmeth : req.method = "POST") (hpath : req.path = "/api/query")
    (hrl : (isRateLimited (req.ip.getD "unknown") now m).1 = false)
    (q : String) (hv : validate req.body = some q)
    (hok : respOk up = false) :
    (handle req now m up).out =
      Outcome.resp 502 (some (errObj MSG_UPSTREAM)) (jsonHdrs (req.origin.getD "")) ∧
    (handle req now m up).logs =
      [(up.status, (parseJson up.body).getD (Json.obj []))] := by
  have hm : ¬ req.method = "OPTIONS" := by simp [hmeth]
  have h2 : ¬ (req.method ≠ "POST" ∨ req.path ≠ "/api/query") := by simp [hmeth, hpath]
  constructor
  · simp [handle, hm, h2, hrl, hv, hok, jsonResp]
  · simp [handle, hm, h2, hrl, hv, hok]

/-- Witness for C5: a well-formed query with the upstream answering 500 and
a non-JSON error body yields the fixed 502 message; the log records status
500 and the fallback empty object. -/
theorem upstream_failure_502_fixed_message_witness :
    validate "\x7b\"query\":\"ola\"\x7d" = some "ola" ∧
    respOk ⟨500, "secret upstream detail"⟩ = false ∧
    (handle ⟨"POST", "/api/query", some "https://athumoz.github.io", some "1.2.3.4",
        "\x7b\"query\":\"ola\"\x7d"⟩ 0 emptyRL ⟨500, "secret upstream detail"⟩).out =
      Outcome.resp 502 (some (errObj MSG_UPSTREAM))
        (jsonHdrs "https://athumoz.github.io") ∧
    (handle ⟨"POST", "/api/query", some "https://athumoz.github.io", some "1.2.3.4",
        "\x7b\"query\":\"ola\"\x7d"⟩ 0 emptyRL ⟨500, "secret upstream detail"⟩).logs =
      [(500, Json.obj [])] := by
  refine ⟨by rfl, by rfl, ?_, ?_⟩
  · have h := (upstream_failure_502_fixed_message
      ⟨"POST", "/api/query", some "https://athumoz.github.io", some "1.2.3.4",
        "\x7b\"query\":\"ola\"\x7d"⟩ 0 emptyRL ⟨500, "secret upstream detail"⟩
      rfl rfl (by rfl) "ola" (by rfl) (by rfl)).1
    simpa using h
  · have h := (upstream_failure_502_fixed_message
      ⟨"POST", "/api/query", some "https://athumoz.github.io", some "1.2.3.4",
        "\x7b\"query\":\"ola\"\x7d"⟩ 0 emptyRL ⟨500, "secret upstream detail"⟩
      rfl rfl (by rfl) "ola" (by rfl) (by rfl)).2
    simpa using h

/-- Condition under which the body-parsing `try` block of the worker takes
its catch arm: unparseable body, absent `query`, non-string `query`, or a
string `query` that trims to empty. -/
def validationFails (bodyText : String) : Bool :=
  match parseJson bodyText with
  | none => true
  | some b =>
    match jsGet b "query" with
    | some (Json.str s) => decide (jsTrim s = "")
    | _ => true

/-- Helper: a 500-character slice is empty only if its source is. -/
lemma jsSlice500_empty {t : String} (h : jsSlice t 500 = "") : t = "" := by
  obtain ⟨l⟩ := t
  have hd := congrArg String.data h
  simp [jsSlice, List.take_eq_nil_iff] at hd
  simp [hd]

/-- Helper: the validator, written out by cases on the parsed body. -/
lemma validate_characterization (bodyText : String) :
    validate bodyText =
      match parseJson bodyText with
      | none => none
      | some b =>
        match jsGet b "query" with
        | some (Json.str s) =>
          if jsTrim s = "" then none else some (jsSlice (jsTrim s) 500)
        | _ => none := by
  unfold validate
  cases hp : parseJson bodyText with
  | none => rfl
  | some b =>
    unfold validateJson
    cases hg : jsGet b "query" with
    | none => simp [extractQuery, hg, jsTruthy]
    | some j =>
      cases j with
      | null => simp [extractQuery, hg, jsTruthy]
      | bool v =>
        cases v with
        | false => simp [extractQuery, hg, jsTruthy]
        | true => simp [extractQuery, hg, jsTruthy]
      | num mm ee =>
        by_cases hm : mm = 0
        · simp [extractQuery, hg, jsTruthy, hm]
        · simp [extractQuery, hg, jsTruthy, hm]
      | arr xs => simp [extractQuery, hg, jsTruthy]
      | obj fs => simp [extractQuery, hg, jsTruthy]
      | str s =>
        by_cases hs : s = ""
        · subst hs
          simp [extractQuery, hg, jsTruthy, jsTrim]
        · simp only [extractQuery, hg]
          rw [if_pos (by simp [jsTruthy, hs])]
          by_cases ht : jsTrim s = ""
          · simp [ht, jsSlice]
          · have hne : jsSlice (jsTrim s) 500 ≠ "" := fun hcon => ht (jsSlice500_empty hcon)
            simp [ht, hne]

/-- Helper: when validation fails, `validate` takes the catch arm. -/
lemma validate_none_of_fails (bodyText : String)
    (hf : validationFails bodyText = true) : validate bodyText = none := by
  rw [validate_characterization]
  unfold validationFails at hf
  cases hp : parseJson bodyText with
  | none => simp [hp]
  | some b =>
    simp only [hp] at hf
    cases hg : jsGet b "query" with
    | none => simp [hp, hg]
    | some j =>
      simp only [hg] at hf
      cases j with
      | null => simp [hp, hg]
      | bool v => simp [hp, hg]
      | num mm ee => simp [hp, hg]
      | arr xs => simp [hp, hg]
      | obj fs => simp [hp, hg]
      | str s =>
        have ht : jsTrim s = "" := by simpa using hf
        simp [hp, hg, ht]

/-- Helper: when validation succeeds, the `query` member is a string that
trims to a non-empty string and `validate` yields its trimmed 500-slice. -/
lemma validate_some_of_not_fails (bodyText : String)
    (hf : validationFails bodyText = false) :
    ∃ b s, parseJson bodyText = some b ∧ jsGet b "query" = some (Json.str s) ∧
      jsTrim s ≠ "" ∧ validate bodyText = some (jsSlice (jsTrim s) 500) := by
  unfold validationFails at hf
  cases hp : parseJson bodyText with
  | none => rw [hp] at hf; simp at hf
  | some b =>
    simp only [hp] at hf
    cases hg : jsGet b "query" with
    | none => simp [hg] at hf
    | some j =>
      simp only [hg] at hf
      cases j with
      | str s =>
        have ht : ¬ jsTrim s = "" := by simpa using hf
        refine ⟨b, s, rfl, hg, ht, ?_⟩
        rw [validate_characterization]
        simp [hp, hg, ht]
      | null => simp at hf
      | bool v => simp at hf
      | num mm ee => simp at hf
      | arr xs => simp at hf
      | obj fs => simp at hf

/-- Helper: once validation succeeds with query `q`, the dispatcher issues
the upstream call with `q` and can no longer answer 400. -/
lemma handle_after_validate (req : Request) (now : Nat) (m : RateMap)
    (up : UpstreamResp) (hmeth : req.method = "POST")
    (hpath : req.path = "/api/query")
    (hrl : (isRateLimited (req.ip.getD "unknown") now m).1 = false)
    (q : String) (hv : validate req.body = some q) :
    (handle req now m up).upstreamQueries = [q] ∧
    outcomeStatus (handle req now m up).out ≠ some 400 := by
  have hm : ¬ req.method = "OPTIONS" := by simp [hmeth]
  have h2 : ¬ (req.method ≠ "POST" ∨ req.path ≠ "/api/query") := by simp [hmeth, hpath]
  by_cases h4 : respOk up = true
  · rcases hp : parseJson up.body with _ | data
    · constructor <;> simp [handle, hm, h2, hrl, hv, h4, hp, outcomeStatus]
    · rcases he : extractRawText data with _ | raw
      · constructor <;>
          simp [handle, hm, h2, hrl, hv, h4, hp, he, outcomeStatus, jsonResp]
      · rcases hc : parseJson (stripFences raw) with _ | p
        · constructor <;>
            simp [handle, hm, h2, hrl, hv, h4, hp, he, hc, outcomeStatus, jsonResp]
        · constructor <;>
            simp [handle, hm, h2, hrl, hv, h4, hp, he, hc, outcomeStatus, jsonResp]
  · constructor <;> simp [handle, hm, h2, hrl, hv, h4, outcomeStatus, jsonResp]

/-- Body text `\x7b"query":"... 600 chars ..."\x7d` used to exhibit truncation. -/
def longBody : String :=
  "\x7b\"query\":\"" ++ String.mk (List.replicate 600 'x') ++ "\"\x7d"

/-- Counterexample to C3: for the parseable body `\x7b"query": 5\x7d` the
handler answers 400 although the body parses, the `query` field is present,
and its value is the number 5 — not a string that trims to empty — so "400
exactly when unparseable, absent, or trimmed-empty" is false as stated. -/
theorem query_400_exactly_when_counterexample :
    parseJson "\x7b\"query\": 5\x7d" = some (Json.obj [("query", Json.num 5 0)]) ∧
    jsGet (Json.obj [("query", Json.num 5 0)]) "query" = some (Json.num 5 0) ∧
    (∀ s, Json.num 5 0 ≠ Json.str s) ∧
    outcomeStatus (handle ⟨"POST", "/api/query", none, none, "\x7b\"query\": 5\x7d"⟩
        0 emptyRL ⟨200, "\x7b\x7d"⟩).out = some 400 :=
  ⟨by rfl, by rfl, fun _ h => Json.noConfusion h, by rfl⟩

/-- C3 (amended): for a POST to `/api/query` under the rate limit, the
handler returns 400 exactly when the body is unparseable JSON, the `query`
field is absent **or not a string**, or the string trims to empty; when it
is a string with non-empty trim, the 400 response is impossible and the
query, trimmed then truncated to its first 500 characters, reaches the
upstream call. -/
theorem query_validation_amended (req : Request) (now : Nat) (m : RateMap)
    (up : UpstreamResp) (hmeth : req.method = "POST")
    (hpath : req.path = "/api/query")
    (hrl : (isRateLimited (req.ip.getD "unknown") now m).1 = false) :
    (outcomeStatus (handle req now m up).out = some 400 ↔
      validationFails req.body = true) ∧
    (validationFails req.body = true →
      (handle req now m up).out =
        Outcome.resp 400 (some (errObj MSG_INVALID)) (jsonHdrs (req.origin.getD "")) ∧
      (handle req now m up).upstreamQueries = []) ∧
    (∀ b s, parseJson req.body = some b →
      jsGet b "query" = some (Json.str s) → jsTrim s ≠ "" →
      (handle req now m up).upstreamQueries = [jsSlice (jsTrim s) 500]) := by
  have hm : ¬ req.method = "OPTIONS" := by simp [hmeth]
  have h2 : ¬ (req.method ≠ "POST" ∨ req.path ≠ "/api/query") := by simp [hmeth, hpath]
  refine ⟨?_, ?_, ?_⟩
  · by_cases hfc : validationFails req.body = true
    · have hv := validate_none_of_fails req.body hfc
      have hout : (handle req now m up).out =
          jsonResp (errObj MSG_INVALID) 400 (req.origin.getD "") := by
        simp [handle, hm, h2, hrl, hv]
      simp [hout, jsonResp, outcomeStatus, hfc]
    · have hfc2 : validationFails req.body = false := by simpa using hfc
      obtain ⟨b, s0, hp, hg, hne, hv⟩ := validate_some_of_not_fails req.body hfc2
      have h400 := (handle_after_validate req now m up hmeth hpath hrl _ hv).2
      simp [hfc2, h400]
  · intro hfc
    have hv := validate_none_of_fails req.body hfc
    constructor
    · simp [handle, hm, h2, hrl, hv, jsonResp]
    · simp [handle, hm, h2, hrl, hv]
  · intro b s0 hp hg hne
    have hv : validate req.body = some (jsSlice (jsTrim s0) 500) := by
      rw [validate_characterization]
      simp [hp, hg, hne]
    exact (handle_after_validate req now m up hmeth hpath hrl _ hv).1

set_option maxRecDepth 40000 in
/-- Witness for C3: the empty object body yields 400; a whitespace-only
query yields 400; a 600-character query is truncated to exactly 500
characters and reaches the upstream call. -/
theorem query_validation_amended_witness :
    outcomeStatus (handle ⟨"POST", "/api/query", none, none, "\x7b\x7d"⟩
        0 emptyRL ⟨200, ""⟩).out = some 400 ∧
    outcomeStatus (handle ⟨"POST", "/api/query", none, none, "\x7b\"query\":\"  \"\x7d"⟩
        0 emptyRL ⟨200, ""⟩).out = some 400 ∧
    (handle ⟨"POST", "/api/query", none, none, longBody⟩
        0 emptyRL ⟨500, ""⟩).upstreamQueries = [String.mk (List.replicate 500 'x')] ∧
    (String.mk (List.replicate 500 'x')).length = 500 := by
  refine ⟨?_, ?_, ?_, ?_⟩
  · exact (query_validation_amended ⟨"POST", "/api/query", none, none, "\x7b\x7d"⟩
      0 emptyRL ⟨200, ""⟩ rfl rfl (by rfl)).1.mpr (by rfl)
  · exact (query_validation_amended
      ⟨"POST", "/api/query", none, none, "\x7b\"query\":\"  \"\x7d"⟩
      0 emptyRL ⟨200, ""⟩ rfl rfl (by rfl)).1.mpr (by rfl)
  · have h := (query_validation_amended ⟨"POST", "/api/query", none, none, longBody⟩
      0 emptyRL ⟨500, ""⟩ rfl rfl (by rfl)).2.2
      (Json.obj [("query", Json.str (String.mk (List.replicate 600 'x')))])
      (String.mk (List.replicate 600 'x')) (by rfl) (by rfl) (by decide)
    simpa using h
  · decide

/-- Counterexample to C8: for the body `\x7b"query": 7\x7d` the claim says the
number is converted to the string "7" and proceeds through validation; the
code instead answers 400 and never issues the upstream call. -/
theorem query_coercion_counterexample :
    parseJson "\x7b\"query\": 7\x7d" = some (Json.obj [("query", Json.num 7 0)]) ∧
    (handle ⟨"POST", "/api/query", none, none, "\x7b\"query\": 7\x7d"⟩
        0 emptyRL ⟨200, "\x7b\x7d"⟩).out =
      Outcome.resp 400 (some (errObj MSG_INVALID)) (jsonHdrs "") ∧
    (handle ⟨"POST", "/api/query", none, none, "\x7b\"query\": 7\x7d"⟩
        0 emptyRL ⟨200, "\x7b\x7d"⟩).upstreamQueries = [] :=
  ⟨by rfl, by rfl, by rfl⟩

/-- C8 (amended): the validator performs no string coercion on a non-string
`query` value: a falsy value is replaced by the empty string (which then
fails the empty-query check) and a truthy value raises a caught type error;
either way the `try` block fails instead of proceeding with a stringified
value. -/
theorem no_query_string_coercion (b j : Json)
    (hg : jsGet b "query" = some j) (hns : ∀ s, j ≠ Json.str s) :
    (jsTruthy (some j) = false → extractQuery b = some "") ∧
    (jsTruthy (some j) = true → extractQuery b = none) ∧
    validateJson b = none := by
  have htr : jsTruthy (some j) = true → extractQuery b = none := by
    intro ht
    simp only [extractQuery, hg, ht, if_true]
    cases j with
    | str s => exact absurd rfl (hns s)
    | null => rfl
    | bool v => rfl
    | num mm ee => rfl
    | arr xs => rfl
    | obj fs => rfl
  have hfa : jsTruthy (some j) = false → extractQuery b = some "" := by
    intro ht
    simp [extractQuery, hg, ht]
  refine ⟨hfa, htr, ?_⟩
  unfold validateJson
  by_cases ht : jsTruthy (some j) = true
  · simp [htr ht]
  · have ht2 : jsTruthy (some j) = false := by simpa using ht
    simp [hfa ht2]

/-- Witness for C8: the truthy number 7 raises the caught type error, the
falsy `false` collapses to the empty string, and both fail validation. -/
theorem no_query_string_coercion_witness :
    extractQuery (Json.obj [("query", Json.num 7 0)]) = none ∧
    validateJson (Json.obj [("query", Json.num 7 0)]) = none ∧
    extractQuery (Json.obj [("query", Json.bool false)]) = some "" ∧
    validateJson (Json.obj [("query", Json.bool false)]) = none := by
  refine ⟨?_, ?_, ?_, ?_⟩
  · exact (no_query_string_coercion (Json.obj [("query", Json.num 7 0)])
      (Json.num 7 0) (by rfl) (fun _ h => Json.noConfusion h)).2.1 (by rfl)
  · exact (no_query_string_coercion (Json.obj [("query", Json.num 7 0)])
      (Json.num 7 0) (by rfl) (fun _ h => Json.noConfusion h)).2.2
  · exact (no_query_string_coercion (Json.obj [("query", Json.bool false)])
      (Json.bool false) (by rfl) (fun _ h => Json.noConfusion h)).1 (by rfl)
  · exact (no_query_string_coercion (Json.obj [("query", Json.bool false)])
      (Json.bool false) (by rfl) (fun _ h => Json.noConfusion h)).2.2

/-- C9: a parseable body whose `query` field holds any non-string JSON
value is answered with the 400 invalid-input response and the upstream
call is never issued. -/
theorem non_string_query_rejected (req : Request) (now : Nat) (m : RateMap)
    (up : UpstreamResp) (hmeth : req.method = "POST")
    (hpath : req.path = "/api/query")
    (hrl : (isRateLimited (req.ip.getD "unknown") now m).1 = false)
    (b j : Json) (hp : parseJson req.body = some b)
    (hg : jsGet b "query" = some j) (hns : ∀ s, j ≠ Json.str s) :
    (handle req now m up).out =
      Outcome.resp 400 (some (errObj MSG_INVALID)) (jsonHdrs (req.origin.getD "")) ∧
    (handle req now m up).upstreamQueries = [] := by
  have hm : ¬ req.method = "OPTIONS" := by simp [hmeth]
  have h2 : ¬ (req.method ≠ "POST" ∨ req.path ≠ "/api/query") := by simp [hmeth, hpath]
  have hv : validate req.body = none := by
    rw [validate_characterization]
    cases j with
    | str s => exact absurd rfl (hns s)
    | null => simp [hp, hg]
    | bool v => simp [hp, hg]
    | num mm ee => simp [hp, hg]
    | arr xs => simp [hp, hg]
    | obj fs => simp [hp, hg]
  constructor
  · simp [handle, hm, h2, hrl, hv, jsonResp]
  · simp [handle, hm, h2, hrl, hv]

/-- Witness for C9 at `query: null`: status 400 with the invalid-input
message and no upstream query. -/
theorem non_string_query_rejected_witness :
    (handle ⟨"POST", "/api/query", none, none, "\x7b\"query\":null\x7d"⟩
        0 emptyRL ⟨200, "\x7b\x7d"⟩).out =
      Outcome.resp 400 (some (errObj MSG_INVALID)) (jsonHdrs "") ∧
    (handle ⟨"POST", "/api/query", none, none, "\x7b\"query\":null\x7d"⟩
        0 emptyRL ⟨200, "\x7b\x7d"⟩).upstreamQueries = [] :=
  non_string_query_rejected
    ⟨"POST", "/api/query", none, none, "\x7b\"query\":null\x7d"⟩ 0 emptyRL
    ⟨200, "\x7b\x7d"⟩ rfl rfl (by rfl)
    (Json.obj [("query", Json.null)]) Json.null (by rfl) (by rfl)
    (fun _ h => Json.noConfusion h)

/-- C4: the sanitizer pipeline (trim, strip a leading fence with or without
a case-insensitive `json` annotation, strip a trailing fence, trim, parse)
maps the fenced example to the object `\x7b"a":1\x7d`; and whenever the cleaned
candidate text is not valid JSON the dispatcher answers 502 with the
could-not-interpret message, which differs from the other 502 messages. -/
theorem fence_strip_and_unparseable_502 :
    parseJson (stripFences (jsTrim " ```json\n\x7b\"a\":1\x7d\n``` ")) =
      some (Json.obj [("a", Json.num 1 0)]) ∧
    parseJson (stripFences (jsTrim " ```JSON\n\x7b\"a\":1\x7d\n``` ")) =
      some (Json.obj [("a", Json.num 1 0)]) ∧
    MSG_UNPARSEABLE ≠ MSG_UPSTREAM ∧ MSG_UNPARSEABLE ≠ MSG_UNEXPECTED ∧
    ∀ (req : Request) (now : Nat) (m : RateMap) (up : UpstreamResp),
      req.method = "POST" → req.path = "/api/query" →
      (isRateLimited (req.ip.getD "unknown") now m).1 = false →
      (∃ q, validate req.body = some q) →
      respOk up = true →
      ∀ (data : Json) (rawText : String), parseJson up.body = some data →
        extractRawText data = some rawText →
        parseJson (stripFences rawText) = none →
        (handle req now m up).out =
          Outcome.resp 502 (some (errObj MSG_UNPARSEABLE))
            (jsonHdrs (req.origin.getD "")) := by
  refine ⟨by rfl, by rfl, by decide, by decide, ?_⟩
  intro req now m up hmeth hpath hrl hvq h4 data rawText hp he hc
  obtain ⟨q, hv⟩ := hvq
  have hm : ¬ req.method = "OPTIONS" := by simp [hmeth]
  have h2 : ¬ (req.method ≠ "POST" ∨ req.path ≠ "/api/query") := by simp [hmeth, hpath]
  simp [handle, hm, h2, hrl, hv, h4, hp, he, hc, jsonResp]

/-- Witness for C4: the upstream success envelope whose candidate text is
`not json` makes the dispatcher answer 502 with the could-not-interpret
message. -/
theorem fence_strip_and_unparseable_502_witness :
    (handle ⟨"POST", "/api/query", some "https://athumoz.github.io", some "1.2.3.4",
        "\x7b\"query\":\"ola\"\x7d"⟩ 0 emptyRL
      ⟨200, "\x7b\"candidates\":[\x7b\"content\":\x7b\"parts\":[\x7b\"text\":\"not json\"\x7d]\x7d\x7d]\x7d"⟩).out =
      Outcome.resp 502 (some (errObj MSG_UNPARSEABLE))
        (jsonHdrs "https://athumoz.github.io") :=
  fence_strip_and_unparseable_502.2.2.2.2
    ⟨"POST", "/api/query", some "https://athumoz.github.io", some "1.2.3.4",
      "\x7b\"query\":\"ola\"\x7d"⟩ 0 emptyRL
    ⟨200, "\x7b\"candidates\":[\x7b\"content\":\x7b\"parts\":[\x7b\"text\":\"not json\"\x7d]\x7d\x7d]\x7d"⟩
    rfl rfl (by rfl) ⟨"ola", by rfl⟩ (by rfl)
    (Json.obj [("candidates", Json.arr [Json.obj [("content", Json.obj
      [("parts", Json.arr [Json.obj [("text", Json.str "not json")]])])]])])
    "not json" (by rfl) (by rfl) (by rfl)
